import Mathlib

/-!
Verification development for the order/delivery management backend
(`src/supabase/functions/server/index.tsx`) together with the courier client
(`Orders` component, `handleUpdateStatus`) and the client-side `OfflineQueue`
(source reproduced in `src/UNIFIED_INTERFACE.md`).

The persistent record store (`kv_store.tsx`) is an external collaborator:
it is modelled as typed lists held in a `St` record, in key-scan order
(`getByPrefix` returns values in key order; numeric ids produced by
`Date.now()` grow over time, so freshly inserted records appear at the end
of the scan).  `kv.set` on an existing key replaces the record in place;
on a fresh key it appends.

Timestamps (`new Date().toISOString()`, `Date.now()`) are passed in as
explicit parameters.  The `id` and `date` fields of `StockMovement` rows
and the `snapshot` payload of audit rows are generated from the clock and
are not inspected by any property below; movement rows keep their `date`
and drop the numeric `id`, audit rows keep entity/entityId/action/userId.
-/

namespace Crm

/-- One serialized physical stock item (kv key `stock_unit:{id}`).
`status` ranges over `"available" | "reserved" | "sold"`; `orderId` is the
order the unit is reserved for, when any.  An absent/empty serial is
modelled as `""` (JS falsiness of `data.serial`). -/
structure StockUnit where
  id : Nat
  productId : Nat
  serial : String
  status : String
  orderId : Option Nat
  deriving Repr, DecidableEq

/-- Append-only ledger row (kv key `stock_move:{id}`); `type` ranges over
`"arrival" | "reserve" | "writeoff"`. -/
structure StockMovement where
  type : String
  productId : Nat
  serial : String
  quantity : Nat
  date : String
  reason : String
  userId : String
  deriving Repr, DecidableEq

/-- Order line item (kv key `order_item:{orderId}:{i}`).  `serial = ""`
models an item without a serial reference. -/
structure OrderItem where
  orderId : Nat
  productId : Nat
  serial : String
  deriving Repr, DecidableEq

/-- Customer order (kv key `order:{id}`), restricted to the fields the core
reads or writes. -/
structure Order where
  id : Nat
  number : String
  status : String
  courierId : Option String
  deliveryDate : Option String
  deliveryStatus : Option String
  deliveredAt : Option String
  deliveredLat : Option Int
  deliveredLng : Option Int
  proofPhotoUrl : Option String
  proofSignatureUrl : Option String
  recipientName : Option String
  updatedAt : Option String
  updatedBy : Option String
  deriving Repr, DecidableEq

/-- Append-only audit record (kv key `audit:{ts}:{rand}`); the `snapshot`
payload is not modelled. -/
structure AuditEntry where
  entity : String
  entityId : String
  action : String
  userId : String
  deriving Repr, DecidableEq

/-- The authenticated caller, as produced by `verifyUser`. -/
structure User where
  id : String
  name : String
  role : String
  deriving Repr, DecidableEq

/-- The backing key-value store, split by key prefix, each list in key-scan
order. -/
structure St where
  orders : List Order
  orderItems : List OrderItem
  stockUnits : List StockUnit
  stockMoves : List StockMovement
  audit : List AuditEntry
  deriving Repr, DecidableEq

/-- The empty store. -/
def St.empty : St := ⟨[], [], [], [], []⟩

/-- `kv.set` for the `stock_unit:` prefix: replace the record whose key
(numeric id) matches, else append under the new key. -/
def kvSetUnit (units : List StockUnit) (u : StockUnit) : List StockUnit :=
  if units.any (fun v => v.id == u.id) then
    units.map (fun v => if v.id == u.id then u else v)
  else units ++ [u]

/-- `kv.set` for the `order:` prefix. -/
def kvSetOrder (orders : List Order) (o : Order) : List Order :=
  if orders.any (fun v => v.id == o.id) then
    orders.map (fun v => if v.id == o.id then o else v)
  else orders ++ [o]

/-- `kv.get('order:' + id)`: point lookup by numeric id. -/
def findOrder (st : St) (oid : Nat) : Option Order :=
  st.orders.find? (fun o => o.id == oid)

/-- `kv.getByPrefix('order_item:' + id + ':')`: the order's line items. -/
def itemsOfOrder (st : St) (oid : Nat) : List OrderItem :=
  st.orderItems.filter (fun it => it.orderId == oid)

/-- `stockUnits.find(u => u.serial === item.serial)`: the first unit in
scan order with the given serial — the match is by serial alone, the
product id is not compared. -/
def findUnitBySerial (units : List StockUnit) (serial : String) : Option StockUnit :=
  units.find? (fun u => u.serial == serial)

/-- Typed HTTP error outcomes of a handler. -/
inductive HErr where
  | notFound (msg : String)
  | badRequest (msg : String)
  | forbidden (msg : String)
  deriving Repr, DecidableEq

/-! ## POST /stock-units (`arrive`) -/

/-- `POST /stock-units`: serial-uniqueness check (only when `data.serial`
is truthy), then create the unit as `available` plus one `arrival`
movement and a `create` audit entry.  `newId` stands for the `Date.now()`
id of the created unit, `now` for the creation timestamp. -/
def createStockUnit (user : User) (productId : Nat) (serial : String)
    (supplier : String) (newId : Nat) (now : String) (st : St) :
    Except HErr (StockUnit × St) :=
  if serial != "" &&
      st.stockUnits.any (fun u => u.serial == serial && u.productId == productId) then
    .error (.badRequest "Серийный номер уже существует")
  else
    let unit : StockUnit := ⟨newId, productId, serial, "available", none⟩
    let movement : StockMovement :=
      ⟨"arrival", productId, serial, 1, now, supplier, user.id⟩
    .ok (unit,
      { st with
        stockUnits := kvSetUnit st.stockUnits unit
        stockMoves := st.stockMoves ++ [movement]
        audit := st.audit ++ [⟨"stock_unit", toString newId, "create", user.id⟩] })

/-- `DELETE /stock-units/:id`: refuse when missing or already `sold`,
otherwise remove the unit's key and append a `delete` audit entry. -/
def deleteStockUnit (user : User) (uid : Nat) (st : St) : Except HErr St :=
  match st.stockUnits.find? (fun u => u.id == uid) with
  | none => .error (.notFound "Unit not found")
  | some unit =>
    if unit.status == "sold" then
      .error (.badRequest "Невозможно удалить проданный товар")
    else
      .ok { st with
            stockUnits := st.stockUnits.filter (fun u => !(u.id == uid))
            audit := st.audit ++ [⟨"stock_unit", toString uid, "delete", user.id⟩] }

/-! ## POST /orders/:id/status -/

/-- One iteration of the reservation loop run when the target status is
`picking` or `shipped`: for an item with a truthy serial, re-scan the
units, take the first one with that serial, and when it is `available`
write it back as `reserved` with the order id attached and append one
`reserve` movement; in every other case leave the store untouched. -/
def reserveItem (user : User) (oid : Nat) (orderNumber : String) (now : String)
    (st : St) (item : OrderItem) : St :=
  if item.serial != "" then
    match findUnitBySerial st.stockUnits item.serial with
    | some u =>
      if u.status == "available" then
        { st with
          stockUnits := kvSetUnit st.stockUnits
            { u with status := "reserved", orderId := some oid }
          stockMoves := st.stockMoves ++
            [⟨"reserve", item.productId, item.serial, 1, now,
              "Заказ " ++ orderNumber, user.id⟩] }
      else st
    | none => st
  else st

/-- One iteration of the write-off loop run when the target status is
`completed`: for an item with a truthy serial, take the first unit with
that serial and, whatever its status, write it back as `sold` (the
`orderId` field is carried over unchanged by the object spread) and append
one `writeoff` movement. -/
def writeoffItem (user : User) (orderNumber : String) (now : String)
    (st : St) (item : OrderItem) : St :=
  if item.serial != "" then
    match findUnitBySerial st.stockUnits item.serial with
    | some u =>
      { st with
        stockUnits := kvSetUnit st.stockUnits { u with status := "sold" }
        stockMoves := st.stockMoves ++
          [⟨"writeoff", item.productId, item.serial, 1, now,
            "Заказ " ++ orderNumber, user.id⟩] }
    | none => st
  else st

/-- `POST /orders/:id/status` body: target status plus an optional
`courierId` field (`none` = field absent = keep the current assignee). -/
structure StatusRequest where
  status : String
  courierId : Option (Option String)
  deriving Repr, DecidableEq

/-- `POST /orders/:id/status`: no transition-table check — any target
status is accepted.  Runs the reservation loop for `picking`/`shipped`,
the write-off loop for `completed`, then stores the updated order and
appends a `status_change` audit entry (plus `courier_assigned` when a
truthy, different courier id is supplied). -/
def updateStatus (user : User) (oid : Nat) (req : StatusRequest) (now : String)
    (st : St) : Except HErr (Order × St) :=
  match findOrder st oid with
  | none => .error (.notFound "Order not found")
  | some order =>
    let st1 :=
      if req.status == "picking" || req.status == "shipped" then
        (itemsOfOrder st oid).foldl (reserveItem user oid order.number now) st
      else st
    let st2 :=
      if req.status == "completed" then
        (itemsOfOrder st1 oid).foldl (writeoffItem user order.number now) st1
      else st1
    let updatedOrder :=
      { order with
        status := req.status
        courierId := match req.courierId with
          | some c => c
          | none => order.courierId
        updatedAt := some now
        updatedBy := some user.id }
    let courierAudit : List AuditEntry :=
      match req.courierId with
      | some (some c) =>
        if some c != order.courierId then
          [⟨"order", toString oid, "courier_assigned", user.id⟩]
        else []
      | _ => []
    .ok (updatedOrder,
      { st2 with
        orders := kvSetOrder st2.orders updatedOrder
        audit := st2.audit ++
          [⟨"order", toString oid, "status_change", user.id⟩] ++ courierAudit })

/-! ## DELETE /orders/:id -/

/-- `DELETE /orders/:id`: allowed only in status `new` or `cancelled`;
on success the order's items and the order itself are removed and a
`delete` audit entry is appended.  Stock units are never touched.  On
error the handler returns before any `kv.del`, so the store is unchanged. -/
def deleteOrder (user : User) (oid : Nat) (st : St) : Except HErr St :=
  match findOrder st oid with
  | none => .error (.notFound "Order not found")
  | some order =>
    if order.status != "new" && order.status != "cancelled" then
      .error (.badRequest "Можно удалить только новые или отменённые заказы")
    else
      .ok { st with
            orderItems := st.orderItems.filter (fun it => !(it.orderId == oid))
            orders := st.orders.filter (fun o => !(o.id == oid))
            audit := st.audit ++ [⟨"order", toString oid, "delete", user.id⟩] }

/-! ## GET /orders (courier filter) -/

/-- The body of the courier filter in `GET /orders`: assigned to this
courier, delivery date equal (string comparison on `YYYY-MM-DD`) to today
or tomorrow, and status in the deliverable list. -/
def courierVisible (u : User) (todayStr tomorrowStr : String) (o : Order) : Bool :=
  (o.courierId == some u.id) &&
  (o.deliveryDate == some todayStr || o.deliveryDate == some tomorrowStr) &&
  ["confirmed", "picking", "ready", "shipped", "completed"].contains o.status

/-- `GET /orders`: couriers get only their visible orders, every other
role gets all orders.  `todayStr`/`tomorrowStr` stand for the server's
current and next calendar date.  (The handler additionally sorts by id
descending, which does not affect membership and is not modelled.) -/
def listOrders (u : User) (todayStr tomorrowStr : String) (st : St) : List Order :=
  if u.role == "courier" then
    st.orders.filter (courierVisible u todayStr tomorrowStr)
  else st.orders

/-! ## POST /orders/:id/delivery-status -/

/-- Body of `POST /orders/:id/delivery-status`.  `recipientName` may be
present-but-empty (`some ""`), mirroring a JS empty string. -/
structure DeliveryPayload where
  deliveryStatus : String
  proofPhotoUrl : Option String
  proofSignatureUrl : Option String
  recipientName : Option String
  lat : Option Int
  lng : Option Int
  deriving Repr, DecidableEq

/-- The pure order update performed by the delivery-status handler:
always overwrite `deliveryStatus`/`updatedAt`/`updatedBy`; when the target
is `delivered`, additionally stamp `deliveredAt := now` and copy all proof
fields from the payload (with no validation of any kind). -/
def applyDelivery (user : User) (p : DeliveryPayload) (now : String) (o : Order) :
    Order :=
  let base := { o with
    deliveryStatus := some p.deliveryStatus
    updatedAt := some now
    updatedBy := some user.id }
  if p.deliveryStatus == "delivered" then
    { base with
      deliveredAt := some now
      deliveredLat := p.lat
      deliveredLng := p.lng
      proofPhotoUrl := p.proofPhotoUrl
      proofSignatureUrl := p.proofSignatureUrl
      recipientName := p.recipientName }
  else base

/-- `POST /orders/:id/delivery-status`: 404 when the order is missing,
403 when a courier is not the assignee, otherwise persist
`applyDelivery` and append a `delivery_status_change` audit entry. -/
def deliveryStatusUpdate (user : User) (oid : Nat) (p : DeliveryPayload)
    (now : String) (st : St) : Except HErr (Order × St) :=
  match findOrder st oid with
  | none => .error (.notFound "Order not found")
  | some order =>
    if user.role == "courier" && order.courierId != some user.id then
      .error (.forbidden "Not assigned to this order")
    else
      let updated := applyDelivery user p now order
      .ok (updated,
        { st with
          orders := kvSetOrder st.orders updated
          audit := st.audit ++
            [⟨"order", toString oid, "delivery_status_change", user.id⟩] })

/-! ## Client-side `OfflineQueue` (source in `src/UNIFIED_INTERFACE.md`) -/

/-- One record of the IndexedDB `actions` object store: the payload of the
buffered mutation plus the fields `addAction` adds (`timestamp`,
`synced: false`) and the auto-incremented key `id`. -/
structure PendingAction where
  id : Nat
  payload : DeliveryPayload
  timestamp : Nat
  synced : Bool
  deriving Repr, DecidableEq

/-- The queue contents: the `actions` store in key order, plus the next
auto-increment key. -/
structure Queue where
  actions : List PendingAction
  nextId : Nat
  deriving Repr, DecidableEq

/-- The empty queue after `init` on a fresh database (IndexedDB
auto-increment keys start at 1). -/
def Queue.empty : Queue := ⟨[], 1⟩

/-- `OfflineQueue.addAction(action)`: `store.add({...action, timestamp:
Date.now(), synced: false})` under the next auto-increment key. -/
def Queue.addAction (q : Queue) (payload : DeliveryPayload) (nowMs : Nat) : Queue :=
  ⟨q.actions ++ [⟨q.nextId, payload, nowMs, false⟩], q.nextId + 1⟩

/-- `OfflineQueue.getPendingActions()`: all stored actions with
`!a.synced`, in store order. -/
def Queue.getPendingActions (q : Queue) : List PendingAction :=
  q.actions.filter (fun a => !a.synced)

/-- `OfflineQueue.markAsSynced(id)`: `store.delete(id)` — the record is
removed from the store. -/
def Queue.markAsSynced (q : Queue) (id : Nat) : Queue :=
  ⟨q.actions.filter (fun a => !(a.id == id)), q.nextId⟩

/-- The methods the `OfflineQueue` class declares
(`src/UNIFIED_INTERFACE.md`, the full class body): `init`, `addAction`,
`getPendingActions`, `markAsSynced` and nothing else. -/
def offlineQueueMethods : List String :=
  ["init", "addAction", "getPendingActions", "markAsSynced"]

/-! ## Courier client: `handleUpdateStatus` -/

/-- JS falsiness of the client's `proofPhoto` state (`string | null`):
`null` or the empty string. -/
def jsFalsyOpt (s : Option String) : Bool :=
  match s with
  | none => true
  | some t => t == ""

/-- What the courier client reports to the user at the end of
`handleUpdateStatus`. -/
inductive ClientOutcome where
  /-- The `delivered` guard fired: error toast, no request issued. -/
  | validationError
  /-- The request reached the server and succeeded. -/
  | success
  /-- The operation was buffered offline: "saved, will sync" toast. -/
  | deferredSuccess
  /-- The outer catch fired: plain error toast. -/
  | errorShown
  deriving Repr, DecidableEq

/-- The payload `handleUpdateStatus` builds from its component state
(`recipientName: recipientName || undefined`; the client-side
`deliveredAt` field is ignored by the server and not modelled). -/
def clientPayload (newStatus : String) (proofPhoto : Option String)
    (recipientName : String) (loc : Option (Int × Int)) : DeliveryPayload :=
  { deliveryStatus := newStatus
    proofPhotoUrl := proofPhoto
    proofSignatureUrl := none
    recipientName := if recipientName == "" then none else some recipientName
    lat := loc.map Prod.fst
    lng := loc.map Prod.snd }

/-- Invoking a method named `m` on the `OfflineQueue` instance: when the
class declares no such method the call site throws a `TypeError` (the
property is `undefined`), which the model reports as an error.  The only
queue call the client makes is `queue.add(operation)`. -/
def invokeQueueMethod (m : String) (q : Queue) (payload : DeliveryPayload)
    (nowMs : Nat) : Except String Queue :=
  if m == "addAction" then .ok (q.addAction payload nowMs)
  else if offlineQueueMethods.contains m then .ok q
  else .error "TypeError: queue method is not a function"

/-- `handleUpdateStatus(newStatus)` of the courier `Orders` component:
the `delivered` guard (`!proofPhoto || !recipientName` → error toast,
early return), then the network call; on a failure whose message contains
`Offline` the inner catch runs `await queue.add(operation)`, every other
failure is rethrown to the outer catch.  `connected = false` makes the
`apiCall` fail with the `Offline` error.  Returns the user-visible
outcome, the resulting server store and the resulting queue. -/
def handleUpdateStatus (user : User) (oid : Nat) (proofPhoto : Option String)
    (recipientName : String) (loc : Option (Int × Int)) (newStatus : String)
    (connected : Bool) (now : String) (nowMs : Nat) (st : St) (q : Queue) :
    ClientOutcome × St × Queue :=
  if newStatus == "delivered" && (jsFalsyOpt proofPhoto || recipientName == "") then
    (.validationError, st, q)
  else
    let payload := clientPayload newStatus proofPhoto recipientName loc
    if connected then
      match deliveryStatusUpdate user oid payload now st with
      | .ok (_, st') => (.success, st', q)
      | .error _ => (.errorShown, st, q)
    else
      match invokeQueueMethod "add" q payload nowMs with
      | .ok q' => (.deferredSuccess, st, q')
      | .error _ => (.errorShown, st, q)

/-! ## The reservation race (two awaits: scan, then write) -/

/-- One in-flight reservation flow of the `picking`/`shipped` branch,
reduced to its two suspension points: the `kv.getByPrefix` scan (whose
result is kept in a local, `snap`) and the `kv.set` write-back decided
from that snapshot.  `outcome = some true` records that this flow wrote a
reservation, `some false` that it skipped the item. -/
structure ReserveFlow where
  oid : Nat
  serial : String
  snap : Option (List StockUnit)
  outcome : Option Bool
  deriving Repr, DecidableEq

/-- A fresh reservation flow for order `oid` and serial `serial`. -/
def ReserveFlow.start (oid : Nat) (serial : String) : ReserveFlow :=
  ⟨oid, serial, none, none⟩

/-- Run the next atomic step of a flow against the shared store: first the
scan (capturing the snapshot), then the check-and-write where the check
reads the stale snapshot while the write hits the current store — exactly
the read-then-write pattern of the handler, with no version check. -/
def reserveStep (units : List StockUnit) (t : ReserveFlow) :
    List StockUnit × ReserveFlow :=
  match t.snap with
  | none => (units, { t with snap := some units })
  | some snap =>
    match t.outcome with
    | some _ => (units, t)
    | none =>
      match findUnitBySerial snap t.serial with
      | some u =>
        if u.status == "available" then
          (kvSetUnit units { u with status := "reserved", orderId := some t.oid },
           { t with outcome := some true })
        else (units, { t with outcome := some false })
      | none => (units, { t with outcome := some false })

/-- Run two interleaved reservation flows under a schedule (`false` =
flow 1 acts next, `true` = flow 2). -/
def runRace (sched : List Bool) (units : List StockUnit)
    (t1 t2 : ReserveFlow) : List StockUnit × ReserveFlow × ReserveFlow :=
  match sched with
  | [] => (units, t1, t2)
  | b :: rest =>
    if b then
      let (units', t2') := reserveStep units t2
      runRace rest units' t1 t2'
    else
      let (units', t1') := reserveStep units t1
      runRace rest units' t1' t2

/-! ## The spec's transition table -/

/-- Modelled from the spec: the adjacency table of §4.1 — the chain
`new → in_progress → confirmed → picking → shipped → completed`, with
`cancelled` reachable from any non-terminal state and
`completed`/`cancelled` terminal.  (The server enforces no such table;
this definition exists to compare the spec's words with the code.) -/
def specAllowedTransition (cur target : String) : Bool :=
  match cur with
  | "new" => target == "in_progress" || target == "cancelled"
  | "in_progress" => target == "confirmed" || target == "cancelled"
  | "confirmed" => target == "picking" || target == "cancelled"
  | "picking" => target == "shipped" || target == "cancelled"
  | "shipped" => target == "completed" || target == "cancelled"
  | _ => false

/-! ## POST /orders (only the parts that matter for reachability) -/

/-- `POST /orders`: store the new order record, store its line items under
`order_item:{id}:{i}`, append a `create` audit entry.  Stock units are not
touched.  `o` stands for the record the handler builds from the request
body (the client controls every field, including the initial status). -/
def createOrder (user : User) (o : Order) (items : List (Nat × String)) (st : St) :
    St :=
  { st with
    orders := kvSetOrder st.orders o
    orderItems := st.orderItems ++ items.map (fun it => ⟨o.id, it.1, it.2⟩)
    audit := st.audit ++ [⟨"order", toString o.id, "create", user.id⟩] }

/-! ## Reachable store states -/

/-- One state-changing request against the part of the server that can
touch `stock_unit:` keys (plus the order CRUD needed to drive the status
transitions). -/
inductive Op where
  | arrive (user : User) (productId : Nat) (serial : String) (supplier : String)
      (newId : Nat) (now : String)
  | removeUnit (user : User) (uid : Nat)
  | create (user : User) (o : Order) (items : List (Nat × String))
  | status (user : User) (oid : Nat) (req : StatusRequest) (now : String)
  | delivery (user : User) (oid : Nat) (p : DeliveryPayload) (now : String)
  | removeOrder (user : User) (oid : Nat)

/-- Apply one request; a handler that answers with an error leaves the
store unchanged. -/
def step (st : St) (op : Op) : St :=
  match op with
  | .arrive user productId serial supplier newId now =>
    match createStockUnit user productId serial supplier newId now st with
    | .ok (_, st') => st'
    | .error _ => st
  | .removeUnit user uid =>
    match deleteStockUnit user uid st with
    | .ok st' => st'
    | .error _ => st
  | .create user o items => createOrder user o items st
  | .status user oid req now =>
    match updateStatus user oid req now st with
    | .ok (_, st') => st'
    | .error _ => st
  | .delivery user oid p now =>
    match deliveryStatusUpdate user oid p now st with
    | .ok (_, st') => st'
    | .error _ => st
  | .removeOrder user oid =>
    match deleteOrder user oid st with
    | .ok st' => st'
    | .error _ => st

/-- The store after a sequence of requests against an empty system. -/
def run (ops : List Op) : St := ops.foldl step St.empty

/-- A store state the system can actually be in. -/
def Reachable (st : St) : Prop := ∃ ops, run ops = st

/-- The identifying part of a stock-unit record: its kv key (numeric id)
and its `(productId, serial)` pair. -/
def unitKeys (units : List StockUnit) : List (Nat × Nat × String) :=
  units.map (fun u => (u.id, u.productId, u.serial))

/-- Two unit keys are compatible when their kv keys differ and, for units
carrying a serial, their `(productId, serial)` pairs differ. -/
def KeyOk (a b : Nat × Nat × String) : Prop :=
  a.1 ≠ b.1 ∧ (a.2.2 ≠ "" → ¬(a.2.1 = b.2.1 ∧ a.2.2 = b.2.2))

/-- The §3 invariant on the stock-unit table: distinct kv keys, and at
most one active unit per `(productId, serial)` pair among units carrying a
serial. -/
def ActiveUniq (units : List StockUnit) : Prop :=
  (unitKeys units).Pairwise KeyOk

instance : DecidableRel KeyOk := fun a b => by
  unfold KeyOk
  infer_instance

instance (units : List StockUnit) : Decidable (ActiveUniq units) := by
  unfold ActiveUniq
  infer_instance

/-! ## Filters over the movement ledger -/

/-- The `reserve` movements recorded for a given serial. -/
def reserveMovesFor (moves : List StockMovement) (s : String) : List StockMovement :=
  moves.filter (fun m => m.type == "reserve" && m.serial == s)

/-- The `writeoff` movements recorded for a given serial. -/
def writeoffMovesFor (moves : List StockMovement) (s : String) : List StockMovement :=
  moves.filter (fun m => m.type == "writeoff" && m.serial == s)

/-! ## Concrete records for the counterexamples and witnesses -/

/-- A manager caller. -/
def mgr : User := ⟨"u-mgr", "Manager", "manager"⟩

/-- The courier `U1` of the §8 visibility example. -/
def courierU1 : User := ⟨"u-c1", "Courier One", "courier"⟩

/-- A second courier `U2`. -/
def courierU2 : User := ⟨"u-c2", "Courier Two", "courier"⟩

/-- A default order record to build examples from. -/
def baseOrder : Order :=
  { id := 1, number := "ORD-1", status := "new", courierId := none
    deliveryDate := none, deliveryStatus := none, deliveredAt := none
    deliveredLat := none, deliveredLng := none, proofPhotoUrl := none
    proofSignatureUrl := none, recipientName := none, updatedAt := none
    updatedBy := none }

/-- C1 counterexample state: two available units share the serial `S`, the
first in scan order belonging to product 2, the second to product 1; the
single line item of order 1 is for product 1 with serial `S`. -/
def c1St : St :=
  { orders := [{ baseOrder with status := "confirmed" }]
    orderItems := [⟨1, 1, "S"⟩]
    stockUnits := [⟨1, 2, "S", "available", none⟩, ⟨2, 1, "S", "available", none⟩]
    stockMoves := []
    audit := [] }

/-- C2 counterexample state: order 1 (status `shipped`) has one item with
serial `S`, whose unit is `reserved` for order 1. -/
def c2St : St :=
  { orders := [{ baseOrder with status := "shipped" }]
    orderItems := [⟨1, 5, "S"⟩]
    stockUnits := [⟨10, 5, "S", "reserved", some 1⟩]
    stockMoves := []
    audit := [] }

/-- An order assigned to courier `U1`, currently `en_route`. -/
def c3Order : Order :=
  { baseOrder with
    status := "shipped", courierId := some "u-c1",
    deliveryStatus := some "en_route" }

/-- A state with one order assigned to courier `U1`, `en_route`. -/
def c3St : St :=
  { orders := [c3Order]
    orderItems := []
    stockUnits := []
    stockMoves := []
    audit := [] }


/-- C4 failing input: order 1 is already `completed` (a terminal state). -/
def c4St : St :=
  { orders := [{ baseOrder with status := "completed" }]
    orderItems := []
    stockUnits := []
    stockMoves := []
    audit := [] }

/-- The §8 example orders: `A` assigned to `U1`, delivering today,
`confirmed`; `B` like `A` but `new`; `C` assigned to `U2`. Dates are the
literal strings `D0` (today) and `D1` (tomorrow). -/
def orderA : Order :=
  { baseOrder with
    id := 3, number := "A", status := "confirmed",
    courierId := some "u-c1", deliveryDate := some "D0" }

/-- §8 example order `B`. -/
def orderB : Order :=
  { baseOrder with
    id := 2, number := "B", status := "new",
    courierId := some "u-c1", deliveryDate := some "D0" }

/-- §8 example order `C`. -/
def orderC : Order :=
  { baseOrder with
    id := 1, number := "C", status := "confirmed",
    courierId := some "u-c2", deliveryDate := some "D0" }

/-- The §8 example store. -/
def c6St : St := { orders := [orderA, orderB, orderC], orderItems := []
                   stockUnits := [], stockMoves := [], audit := [] }

/-- A delivered-confirmation payload with full proof. -/
def c8Payload : DeliveryPayload :=
  { deliveryStatus := "delivered", proofPhotoUrl := some "photo.jpg"
    proofSignatureUrl := none, recipientName := some "Ivan"
    lat := some 53, lng := some 27 }

/-- The order after a first `delivered` confirmation against `c3St` at
time `T1`. -/
def c8o1 : Order := applyDelivery courierU1 c8Payload "T1" c3Order

/-- The store after that first confirmation. -/
def c8st1 : St :=
  { c3St with
    orders := kvSetOrder c3St.orders c8o1
    audit := c3St.audit ++ [⟨"order", "1", "delivery_status_change", "u-c1"⟩] }

/-- The single available unit both racing reservations target. -/
def raceUnit : StockUnit := ⟨1, 7, "S", "available", none⟩

/-- The stock-unit table of a handler result, when it succeeded. -/
def resultUnits (r : Except HErr (Order × St)) : Option (List StockUnit) :=
  match r with
  | .ok (_, st) => some st.stockUnits
  | .error _ => none

/-- The order a handler answered with, when it succeeded. -/
def resultOrder (r : Except HErr (Order × St)) : Option Order :=
  match r with
  | .ok (o, _) => some o
  | .error _ => none

/-- The store a handler result carries, when it succeeded. -/
def resultState (r : Except HErr (Order × St)) : Option St :=
  match r with
  | .ok (_, st) => some st
  | .error _ => none

/-!
# Theorems

First the shared lemmas about the embedding, then one theorem (plus
witness or counterexample) per claim.
-/

/-- `find?` only inspects members of the list. -/
theorem find?_congr_mem {α} (p q : α → Bool) :
    ∀ (l : List α), (∀ a ∈ l, p a = q a) → l.find? p = l.find? q := by
  intro l
  induction l with
  | nil => intro _; rfl
  | cons a t ih =>
    intro h
    have ha := h a (List.mem_cons_self a t)
    rw [List.find?_cons, List.find?_cons, ha]
    cases q a with
    | true => rfl
    | false => exact ih (fun b hb => h b (List.mem_cons_of_mem a hb))

/-- A kv replace on an existing unit key never changes the id column. -/
theorem ids_kvSetUnit (units : List StockUnit) (u : StockUnit)
    (hany : units.any (fun v => v.id == u.id) = true) :
    (kvSetUnit units u).map (fun v => v.id) = units.map (fun v => v.id) := by
  unfold kvSetUnit
  rw [if_pos hany, List.map_map]
  refine List.map_congr_left ?_
  intro v _
  simp only [Function.comp]
  by_cases h : v.id = u.id
  · simp [h]
  · simp [h]

/-- A member of the list makes the kv-replace guard fire. -/
theorem any_id_of_mem (units : List StockUnit) (u0 : StockUnit) (u : StockUnit)
    (hmem : u0 ∈ units) (hid : u.id = u0.id) :
    units.any (fun v => v.id == u.id) = true := by
  rw [List.any_eq_true]
  exact ⟨u0, hmem, by simp [hid]⟩

/-- Writing back a unit that keeps its id, product and serial leaves the
key table `unitKeys` unchanged (ids must be unique so that the write hits
only the intended record). -/
theorem unitKeys_kvSetUnit_self (units : List StockUnit) (u0 u' : StockUnit)
    (hmem : u0 ∈ units)
    (hinj : ∀ v ∈ units, v.id = u0.id → v = u0)
    (hid : u'.id = u0.id) (hpid : u'.productId = u0.productId)
    (hser : u'.serial = u0.serial) :
    unitKeys (kvSetUnit units u') = unitKeys units := by
  unfold kvSetUnit
  rw [if_pos (any_id_of_mem units u0 u' hmem hid)]
  unfold unitKeys
  rw [List.map_map]
  refine List.map_congr_left ?_
  intro v hv
  simp only [Function.comp]
  by_cases h : v.id = u'.id
  · have hv0 : v = u0 := hinj v hv (by rw [h, hid])
    simp [h, hv0, hid, hpid, hser]
  · simp [h]

/-- Writing back the first unit carrying a serial, with id and serial
preserved, updates exactly that lookup and no other serial's lookup. -/
theorem find_kvSetUnit_update (units : List StockUnit) (u0 u' : StockUnit)
    (hfind : findUnitBySerial units u0.serial = some u0)
    (hinj : ∀ v ∈ units, v.id = u0.id → v = u0)
    (hid : u'.id = u0.id) (hser : u'.serial = u0.serial) (s : String) :
    findUnitBySerial (kvSetUnit units u') s =
      if s = u0.serial then some u' else findUnitBySerial units s := by
  have hmem : u0 ∈ units := List.mem_of_find?_eq_some hfind
  unfold findUnitBySerial at hfind
  unfold kvSetUnit
  rw [if_pos (any_id_of_mem units u0 u' hmem hid)]
  unfold findUnitBySerial
  rw [List.find?_map]
  have hcong : units.find?
      ((fun u => u.serial == s) ∘ (fun v => if v.id == u'.id then u' else v)) =
      units.find? (fun u => u.serial == s) := by
    refine find?_congr_mem _ _ units ?_
    intro v hv
    simp only [Function.comp]
    by_cases h : v.id = u'.id
    · have hv0 : v = u0 := hinj v hv (by rw [h, hid])
      simp [h, hv0, hid, hser]
    · simp [h]
  rw [hcong]
  by_cases hs : s = u0.serial
  · subst hs
    rw [hfind]
    simp [Option.map, hid]
  · cases hfd : units.find? (fun u => u.serial == s) with
    | none => simp [hs]
    | some v =>
      have hvs : v.serial = s := by
        have := List.find?_some hfd
        simpa using this
      have hvne : ¬(v.id = u'.id) := by
        intro h
        have hv0 : v = u0 := hinj v (List.mem_of_find?_eq_some hfd) (by rw [h, hid])
        rw [hv0] at hvs
        exact hs hvs.symm
      simp [hs, Option.map, hvne]

/-- Updating an order record (same id) through `kvSetOrder` makes the
point lookup return the new record. -/
theorem find_kvSetOrder (orders : List Order) (oid : Nat) (order o' : Order)
    (hfind : orders.find? (fun o => o.id == oid) = some order)
    (hid : o'.id = order.id) :
    (kvSetOrder orders o').find? (fun o => o.id == oid) = some o' := by
  have hmem : order ∈ orders := List.mem_of_find?_eq_some hfind
  have hoid : order.id = oid := by
    have := List.find?_some hfind
    simpa using this
  unfold kvSetOrder
  have hany : orders.any (fun v => v.id == o'.id) = true := by
    rw [List.any_eq_true]
    exact ⟨order, hmem, by simp [hid]⟩
  rw [if_pos hany]
  rw [List.find?_map]
  have hcong : orders.find?
      ((fun o => o.id == oid) ∘ (fun v => if v.id == o'.id then o' else v)) =
      orders.find? (fun o => o.id == oid) := by
    refine find?_congr_mem _ _ orders ?_
    intro v _
    simp only [Function.comp]
    by_cases h : v.id = o'.id
    · simp [h, hid]
    · simp [h]
  rw [hcong, hfind]
  simp [Option.map, hid, hoid]

/-- The id column is the first projection of the key table. -/
theorem ids_eq_keys_fst (units : List StockUnit) :
    units.map (fun u => u.id) = (unitKeys units).map Prod.fst := by
  unfold unitKeys
  rw [List.map_map]
  rfl

/-- The uniqueness invariant forces distinct ids. -/
theorem activeUniq_nodup_ids (units : List StockUnit) (h : ActiveUniq units) :
    (units.map (fun u => u.id)).Nodup := by
  unfold ActiveUniq unitKeys at h
  rw [List.pairwise_map] at h
  unfold List.Nodup
  rw [List.pairwise_map]
  exact h.imp (fun hk heq => hk.1 heq)

/-- With duplicate-free ids, a unit is determined by its id. -/
theorem nodup_ids_inj (units : List StockUnit)
    (h : (units.map (fun u => u.id)).Nodup) (u0 : StockUnit) (hmem : u0 ∈ units) :
    ∀ v ∈ units, v.id = u0.id → v = u0 :=
  fun v hv hvid => List.inj_on_of_nodup_map h hv hmem hvid

/-- Replacing the records at a given id by a unit whose `(productId,
serial)` pair is fresh preserves the uniqueness invariant. -/
theorem activeUniq_map_replace (u' : StockUnit) (units : List StockUnit)
    (h : ActiveUniq units)
    (hdup : u'.serial ≠ "" →
      ∀ v ∈ units, ¬(v.productId = u'.productId ∧ v.serial = u'.serial)) :
    ActiveUniq (units.map (fun v => if v.id == u'.id then u' else v)) := by
  unfold ActiveUniq unitKeys at h ⊢
  rw [List.pairwise_map] at h
  rw [List.map_map, List.pairwise_map]
  refine h.imp_of_mem ?_
  intro w v hwm hvm hwv
  simp only [Function.comp]
  by_cases hwi : w.id = u'.id
  · by_cases hvi : v.id = u'.id
    · exact absurd (hwi.trans hvi.symm) hwv.1
    · rw [if_pos (beq_iff_eq.mpr hwi), if_neg (by simpa using hvi)]
      refine ⟨?_, ?_⟩
      · show u'.id ≠ v.id
        rw [← hwi]
        exact hwv.1
      · intro hs hc
        exact hdup hs v hvm ⟨hc.1.symm, hc.2.symm⟩
  · rw [if_neg (by simpa using hwi)]
    by_cases hvi : v.id = u'.id
    · rw [if_pos (beq_iff_eq.mpr hvi)]
      refine ⟨?_, ?_⟩
      · show w.id ≠ u'.id
        exact hwi
      · intro hs hc
        have hus : u'.serial ≠ "" := by
          intro he
          exact hs (hc.2.trans he)
        exact hdup hus w hwm hc
    · rw [if_neg (by simpa using hvi)]
      exact hwv

/-- `kv.set` of a unit whose `(productId, serial)` pair is absent from the
table preserves the uniqueness invariant, in both the replace and the
append branch. -/
theorem activeUniq_kvSet_fresh (units : List StockUnit) (u' : StockUnit)
    (h : ActiveUniq units)
    (hdup : u'.serial ≠ "" →
      ∀ v ∈ units, ¬(v.productId = u'.productId ∧ v.serial = u'.serial)) :
    ActiveUniq (kvSetUnit units u') := by
  unfold kvSetUnit
  by_cases hany : units.any (fun v => v.id == u'.id) = true
  · rw [if_pos hany]
    exact activeUniq_map_replace u' units h hdup
  · rw [if_neg hany]
    unfold ActiveUniq unitKeys at h ⊢
    rw [List.map_append, List.pairwise_append]
    refine ⟨h, List.pairwise_singleton _ _, ?_⟩
    intro a ha b hb
    rw [List.mem_map] at ha
    obtain ⟨v, hv, rfl⟩ := ha
    simp only [List.map_cons, List.map_nil, List.mem_singleton] at hb
    subst hb
    have hne : v.id ≠ u'.id := by
      intro he
      exact hany (List.any_eq_true.mpr ⟨v, hv, by simp [he]⟩)
    refine ⟨hne, ?_⟩
    intro hs hc
    by_cases hus : u'.serial = ""
    · exact hs (hc.2.trans hus)
    · exact hdup hus v hv hc

/-- Removing records preserves the uniqueness invariant. -/
theorem activeUniq_filter (units : List StockUnit) (p : StockUnit → Bool)
    (h : ActiveUniq units) : ActiveUniq (units.filter p) := by
  unfold ActiveUniq unitKeys at h ⊢
  exact h.sublist ((List.filter_sublist units).map _)

/-- A reservation step never changes the key table (it only flips status
and attaches an order id on an existing record). -/
theorem unitKeys_reserveItem (user : User) (oid : Nat) (onum now : String)
    (st : St) (item : OrderItem)
    (hnodup : (st.stockUnits.map (fun u => u.id)).Nodup) :
    unitKeys ((reserveItem user oid onum now st item).stockUnits) =
      unitKeys st.stockUnits := by
  unfold reserveItem
  cases hser : (item.serial != "") with
  | false => simp [hser]
  | true =>
    simp only [hser, if_true]
    cases hfind : findUnitBySerial st.stockUnits item.serial with
    | none => simp
    | some u =>
      by_cases hav : (u.status == "available") = true
      · simp only [hav, if_true]
        exact unitKeys_kvSetUnit_self st.stockUnits u _
          (List.mem_of_find?_eq_some hfind)
          (nodup_ids_inj st.stockUnits hnodup u (List.mem_of_find?_eq_some hfind))
          rfl rfl rfl
      · simp [hav]

/-- A write-off step never changes the key table either. -/
theorem unitKeys_writeoffItem (user : User) (onum now : String)
    (st : St) (item : OrderItem)
    (hnodup : (st.stockUnits.map (fun u => u.id)).Nodup) :
    unitKeys ((writeoffItem user onum now st item).stockUnits) =
      unitKeys st.stockUnits := by
  unfold writeoffItem
  cases hser : (item.serial != "") with
  | false => simp [hser]
  | true =>
    simp only [hser, if_true]
    cases hfind : findUnitBySerial st.stockUnits item.serial with
    | none => simp
    | some u =>
      simp only []
      exact unitKeys_kvSetUnit_self st.stockUnits u _
        (List.mem_of_find?_eq_some hfind)
        (nodup_ids_inj st.stockUnits hnodup u (List.mem_of_find?_eq_some hfind))
        rfl rfl rfl

/-- The whole reservation loop leaves the key table unchanged. -/
theorem unitKeys_reserveFold (user : User) (oid : Nat) (onum now : String) :
    ∀ (items : List OrderItem) (st : St),
      (st.stockUnits.map (fun u => u.id)).Nodup →
      unitKeys ((items.foldl (reserveItem user oid onum now) st).stockUnits) =
        unitKeys st.stockUnits := by
  intro items
  induction items with
  | nil => intro st _; rfl
  | cons j rest ih =>
    intro st hnodup
    rw [List.foldl_cons]
    have hkeys := unitKeys_reserveItem user oid onum now st j hnodup
    have hnodup' : ((reserveItem user oid onum now st j).stockUnits.map
        (fun u => u.id)).Nodup := by
      rw [ids_eq_keys_fst, hkeys, ← ids_eq_keys_fst]
      exact hnodup
    rw [ih _ hnodup', hkeys]

/-- The whole write-off loop leaves the key table unchanged. -/
theorem unitKeys_writeoffFold (user : User) (onum now : String) :
    ∀ (items : List OrderItem) (st : St),
      (st.stockUnits.map (fun u => u.id)).Nodup →
      unitKeys ((items.foldl (writeoffItem user onum now) st).stockUnits) =
        unitKeys st.stockUnits := by
  intro items
  induction items with
  | nil => intro st _; rfl
  | cons j rest ih =>
    intro st hnodup
    rw [List.foldl_cons]
    have hkeys := unitKeys_writeoffItem user onum now st j hnodup
    have hnodup' : ((writeoffItem user onum now st j).stockUnits.map
        (fun u => u.id)).Nodup := by
      rw [ids_eq_keys_fst, hkeys, ← ids_eq_keys_fst]
      exact hnodup
    rw [ih _ hnodup', hkeys]

/-- Equal key tables carry the invariant across. -/
theorem activeUniq_congr_keys (a b : List StockUnit)
    (h : unitKeys a = unitKeys b) : ActiveUniq a ↔ ActiveUniq b := by
  unfold ActiveUniq
  rw [h]

/-- Every request handler preserves the stock-unit uniqueness invariant. -/
theorem activeUniq_step (st : St) (op : Op) (h : ActiveUniq st.stockUnits) :
    ActiveUniq ((step st op).stockUnits) := by
  have hn : (st.stockUnits.map (fun u => u.id)).Nodup := activeUniq_nodup_ids _ h
  cases op with
  | arrive user productId serial supplier newId now =>
    simp only [step]
    unfold createStockUnit
    by_cases hc : (serial != "" &&
        st.stockUnits.any (fun u => u.serial == serial && u.productId == productId))
        = true
    · rw [if_pos hc]
      exact h
    · rw [if_neg hc]
      simp only []
      refine activeUniq_kvSet_fresh st.stockUnits _ h ?_
      intro hs v hv hvc
      apply hc
      rw [Bool.and_eq_true]
      refine ⟨by simpa using hs, ?_⟩
      rw [List.any_eq_true]
      exact ⟨v, hv, by simp [hvc.1, hvc.2]⟩
  | removeUnit user uid =>
    simp only [step]
    unfold deleteStockUnit
    cases hfind : st.stockUnits.find? (fun u => u.id == uid) with
    | none => exact h
    | some unit =>
      by_cases hsold : (unit.status == "sold") = true
      · simp only [hfind, hsold, if_true]
        exact h
      · simp only [hfind, hsold, if_false, Bool.false_eq_true]
        exact activeUniq_filter st.stockUnits _ h
  | create user o items =>
    simp only [step]
    unfold createOrder
    exact h
  | status user oid req now =>
    simp only [step]
    unfold updateStatus
    cases hfind : findOrder st oid with
    | none => exact h
    | some order =>
      simp only []
      set st1 := if (req.status == "picking" || req.status == "shipped") = true then
          (itemsOfOrder st oid).foldl (reserveItem user oid order.number now) st
        else st with hst1
      have hkeys1 : unitKeys st1.stockUnits = unitKeys st.stockUnits := by
        rw [hst1]
        by_cases h1 : (req.status == "picking" || req.status == "shipped") = true
        · rw [if_pos h1]
          exact unitKeys_reserveFold user oid order.number now _ st hn
        · rw [if_neg h1]
      have hn1 : (st1.stockUnits.map (fun u => u.id)).Nodup := by
        rw [ids_eq_keys_fst, hkeys1, ← ids_eq_keys_fst]
        exact hn
      set st2 := if (req.status == "completed") = true then
          (itemsOfOrder st1 oid).foldl (writeoffItem user order.number now) st1
        else st1 with hst2
      have hkeys2 : unitKeys st2.stockUnits = unitKeys st1.stockUnits := by
        rw [hst2]
        by_cases h2 : (req.status == "completed") = true
        · rw [if_pos h2]
          exact unitKeys_writeoffFold user order.number now _ st1 hn1
        · rw [if_neg h2]
      rw [activeUniq_congr_keys _ st.stockUnits (hkeys2.trans hkeys1)]
      exact h
  | delivery user oid p now =>
    simp only [step]
    unfold deliveryStatusUpdate
    cases hfind : findOrder st oid with
    | none => exact h
    | some order =>
      by_cases hg : (user.role == "courier" && order.courierId != some user.id) = true
      · simp only [hg, if_true]
        exact h
      · simp only [hg, if_false, Bool.false_eq_true]
        exact h
  | removeOrder user oid =>
    simp only [step]
    unfold deleteOrder
    cases hfind : findOrder st oid with
    | none => exact h
    | some order =>
      by_cases hg : (order.status != "new" && order.status != "cancelled") = true
      · simp only [hg, if_true]
        exact h
      · simp only [hg, if_false, Bool.false_eq_true]
        exact h

/-- The uniqueness invariant holds after any request sequence. -/
theorem foldl_step_activeUniq :
    ∀ (ops : List Op) (st : St), ActiveUniq st.stockUnits →
      ActiveUniq ((ops.foldl step st).stockUnits) := by
  intro ops
  induction ops with
  | nil => intro st h; exact h
  | cons op rest ih =>
    intro st h
    rw [List.foldl_cons]
    exact ih _ (activeUniq_step st op h)

/-- Every reachable store satisfies the uniqueness invariant. -/
theorem reachable_activeUniq (st : St) (h : Reachable st) :
    ActiveUniq st.stockUnits := by
  obtain ⟨ops, rfl⟩ := h
  exact foldl_step_activeUniq ops St.empty List.Pairwise.nil

/-- The invariant bounds the number of active units per pair by one. -/
theorem activeUniq_count (units : List StockUnit) (h : ActiveUniq units)
    (pid : Nat) (s : String) (hs : s ≠ "") :
    (units.filter (fun u => u.productId == pid && u.serial == s)).length ≤ 1 := by
  cases hfil : units.filter (fun u => u.productId == pid && u.serial == s) with
  | nil => simp
  | cons a t =>
    cases t with
    | nil => simp
    | cons b t2 =>
      exfalso
      have hsub : List.Sublist (a :: b :: t2) units := by
        rw [← hfil]
        exact List.filter_sublist units
      have hpair : (unitKeys (a :: b :: t2)).Pairwise KeyOk := by
        unfold ActiveUniq at h
        unfold unitKeys at h ⊢
        exact h.sublist (hsub.map _)
      have hab : KeyOk (a.id, a.productId, a.serial) (b.id, b.productId, b.serial) := by
        unfold unitKeys at hpair
        rw [List.map_cons, List.map_cons, List.pairwise_cons] at hpair
        exact hpair.1 _ (by simp)
      have hpa : (a.productId == pid && a.serial == s) = true := by
        have : a ∈ units.filter (fun u => u.productId == pid && u.serial == s) := by
          rw [hfil]; simp
        exact (List.mem_filter.mp this).2
      have hpb : (b.productId == pid && b.serial == s) = true := by
        have : b ∈ units.filter (fun u => u.productId == pid && u.serial == s) := by
          rw [hfil]; simp
        exact (List.mem_filter.mp this).2
      rw [Bool.and_eq_true, beq_iff_eq, beq_iff_eq] at hpa hpb
      refine hab.2 ?_ ⟨hpa.1.trans hpb.1.symm, hpa.2.trans hpb.2.symm⟩
      rw [hpa.2]
      exact hs

/-- `arrive` with a `(productId, serial)` pair already present among the
active units is rejected, creating nothing. -/
theorem arrive_duplicate_rejected (user : User) (pid : Nat)
    (s supplier : String) (newId : Nat) (now : String) (st : St)
    (hs : s ≠ "") (hdup : ∃ u ∈ st.stockUnits, u.productId = pid ∧ u.serial = s) :
    createStockUnit user pid s supplier newId now st =
      .error (.badRequest "Серийный номер уже существует") := by
  obtain ⟨u, hu, hup, hus⟩ := hdup
  unfold createStockUnit
  rw [if_pos]
  rw [Bool.and_eq_true]
  refine ⟨by simpa using hs, ?_⟩
  rw [List.any_eq_true]
  exact ⟨u, hu, by simp [hup, hus]⟩

/-- C1 counterexample.  In `c1St` the item of order 1 is for product 1
with serial `S`, and the unit for that `(productId, serial)` pair (kv id
2) is `available`; yet after the `picking` transition it is still
`available`, because the loop matches by serial alone and reserves the
product-2 unit (kv id 1) instead. -/
theorem c1_match_is_by_serial_only :
    resultUnits (updateStatus mgr 1 ⟨"picking", none⟩ "T1" c1St) =
      some [⟨1, 2, "S", "reserved", some 1⟩, ⟨2, 1, "S", "available", none⟩] := by
  decide

/-- C2 counterexample.  Completing order 1 in `c2St` marks its reserved
unit `sold` but leaves `orderId = some 1` attached: the owning-order
reference is not cleared. -/
theorem c2_orderId_not_cleared :
    resultUnits (updateStatus mgr 1 ⟨"completed", none⟩ "T1" c2St) =
      some [⟨10, 5, "S", "sold", some 1⟩] := by
  decide

/-- C3 counterexample.  A `delivered` request with an empty recipient name
and no photo reference is not rejected by the server: the handler persists
`deliveryStatus = delivered` (and stamps the empty proof fields). -/
theorem c3_server_does_not_validate :
    (resultOrder (deliveryStatusUpdate courierU1 1
        ⟨"delivered", none, none, some "", none, none⟩ "T1" c3St)).map
        (fun o => (o.deliveryStatus, o.recipientName, o.proofPhotoUrl)) =
      some (some "delivered", some "", none) := by
  decide

/-- C4.  The spec's adjacency table forbids `completed → new`, yet the
status handler accepts it and persists `status = "new"`: the engine
enforces no transition table at all. -/
theorem c4_transitions_not_checked :
    (resultOrder (updateStatus mgr 1 ⟨"new", none⟩ "T1" c4St)).map Order.status
        = some "new"
    ∧ specAllowedTransition "completed" "new" = false := by
  decide

/-- C9.  With connectivity down and the `delivered` guard satisfied, the
client's offline fallback runs `queue.add(operation)` — but the
`OfflineQueue` class declares no `add` method (only `init`, `addAction`,
`getPendingActions`, `markAsSynced`), so the call throws, the outer catch
shows a plain error, and nothing is enqueued. -/
theorem c9_offline_fallback_throws :
    handleUpdateStatus courierU1 1 (some "photo.jpg") "Ivan" none "delivered"
        false "T1" 1000 c3St Queue.empty = (.errorShown, c3St, Queue.empty)
    ∧ offlineQueueMethods.contains "add" = false := by
  decide

/-- C10.  Interleaving the two awaits of two reservation flows for the
same serial (scan 1, scan 2, write 1, write 2) makes both flows report
success, the later write silently overwriting the earlier reservation:
there is no atomic check-and-set and no `Conflict` for the loser. -/
theorem c10_race_both_succeed :
    runRace [false, true, false, true] [raceUnit]
        (.start 101 "S") (.start 102 "S") =
      ([⟨1, 7, "S", "reserved", some 102⟩],
       ⟨101, "S", some [raceUnit], some true⟩,
       ⟨102, "S", some [raceUnit], some true⟩) := by
  decide

/-- C7: in every reachable store at most one active stock unit exists per
`(productId, serial)` pair (for units carrying a serial), and `arrive`
with a duplicate pair is rejected with the validation error, before any
unit or movement is written. -/
theorem c7_unique_active_serials :
    (∀ st, Reachable st → ∀ pid s, s ≠ "" →
      (st.stockUnits.filter
        (fun u => u.productId == pid && u.serial == s)).length ≤ 1) ∧
    (∀ (user : User) (pid : Nat) (s supplier : String) (newId : Nat)
        (now : String) (st : St),
      s ≠ "" → (∃ u ∈ st.stockUnits, u.productId = pid ∧ u.serial = s) →
      createStockUnit user pid s supplier newId now st =
        .error (.badRequest "Серийный номер уже существует")) :=
  ⟨fun st h pid s hs => activeUniq_count _ (reachable_activeUniq st h) pid s hs,
   fun user pid s supplier newId now st hs hdup =>
     arrive_duplicate_rejected user pid s supplier newId now st hs hdup⟩

/-- Witness for C7 at a concrete reachable store: after one arrival of
`(5, S)` the pair count is at most one and a second arrival of the same
pair is rejected. -/
theorem c7_unique_active_serials_witness :
    ((run [Op.arrive mgr 5 "S" "sup" 1 "T0"]).stockUnits.filter
        (fun u => u.productId == 5 && u.serial == "S")).length ≤ 1 ∧
    createStockUnit mgr 5 "S" "sup2" 2 "T1" (run [Op.arrive mgr 5 "S" "sup" 1 "T0"]) =
      .error (.badRequest "Серийный номер уже существует") :=
  ⟨c7_unique_active_serials.1 _ ⟨[Op.arrive mgr 5 "S" "sup" 1 "T0"], rfl⟩ 5 "S"
      (by decide),
   c7_unique_active_serials.2 mgr 5 "S" "sup2" 2 "T1" _ (by decide) (by decide)⟩

/-- C5: deleting an order succeeds exactly when its status is `new` or
`cancelled`; on success its items are removed, the order is removed, one
`delete` audit entry is appended and no stock unit or movement changes;
otherwise the handler answers with the conflict error before touching
anything. -/
theorem c5_delete_only_new_or_cancelled (user : User) (oid : Nat) (st : St)
    (order : Order) (horder : findOrder st oid = some order) :
    ((deleteOrder user oid st).isOk = true ↔
      (order.status = "new" ∨ order.status = "cancelled")) ∧
    (∀ st', deleteOrder user oid st = .ok st' →
      st'.orderItems = st.orderItems.filter (fun it => !(it.orderId == oid)) ∧
      (∀ it ∈ st'.orderItems, it.orderId ≠ oid) ∧
      st'.orders = st.orders.filter (fun o => !(o.id == oid)) ∧
      (∀ o ∈ st'.orders, o.id ≠ oid) ∧
      st'.stockUnits = st.stockUnits ∧
      st'.stockMoves = st.stockMoves ∧
      st'.audit = st.audit ++ [⟨"order", toString oid, "delete", user.id⟩]) ∧
    (¬(order.status = "new" ∨ order.status = "cancelled") →
      deleteOrder user oid st =
        .error (.badRequest "Можно удалить только новые или отменённые заказы")) := by
  unfold deleteOrder
  simp only [horder]
  by_cases hc : (order.status != "new" && order.status != "cancelled") = true
  · rw [if_pos hc]
    rw [Bool.and_eq_true, bne_iff_ne, bne_iff_ne] at hc
    refine ⟨?_, ?_, ?_⟩
    · simp [Except.isOk, Except.toBool, hc.1, hc.2]
    · intro st' hst'
      simp at hst'
    · intro _
      rfl
  · rw [if_neg hc]
    rw [Bool.and_eq_true, bne_iff_ne, bne_iff_ne] at hc
    have hor : order.status = "new" ∨ order.status = "cancelled" := by
      by_cases h1 : order.status = "new"
      · exact Or.inl h1
      · by_cases h2 : order.status = "cancelled"
        · exact Or.inr h2
        · exact absurd ⟨h1, h2⟩ hc
    refine ⟨?_, ?_, ?_⟩
    · simp [Except.isOk, Except.toBool, hor]
    · intro st' hst'
      rw [Except.ok.injEq] at hst'
      subst hst'
      refine ⟨rfl, ?_, rfl, ?_, rfl, rfl, rfl⟩
      · intro it hit
        have := (List.mem_filter.mp hit).2
        simpa using this
      · intro o ho
        have := (List.mem_filter.mp ho).2
        simpa using this
    · intro hno
      exact absurd hor hno

/-- Witness for C5 at two concrete inputs: a `completed` order cannot be
deleted, a `new` order can. -/
theorem c5_delete_witness :
    ((deleteOrder mgr 1 c4St).isOk = true ↔
      ("completed" = "new" ∨ "completed" = "cancelled")) ∧
    (deleteOrder mgr 1 { c4St with orders := [baseOrder] }).isOk = true := by
  constructor
  · have h := (c5_delete_only_new_or_cancelled mgr 1 c4St
      { baseOrder with status := "completed" } (by decide)).1
    simpa using h
  · have h := (c5_delete_only_new_or_cancelled mgr 1
      { c4St with orders := [baseOrder] } baseOrder (by decide)).1
    rw [h]
    exact Or.inl rfl

/-- C6: for a courier caller the order list is exactly the orders passing
the visibility predicate (assigned to the courier, delivery date today or
tomorrow, status in the deliverable set); on the §8 example set
`{A, B, C}` the filter returns exactly `{A}`. -/
theorem c6_courier_filter :
    (∀ (u : User) (today tomorrow : String) (st : St) (o : Order),
      u.role = "courier" →
      (o ∈ listOrders u today tomorrow st ↔
        o ∈ st.orders ∧ courierVisible u today tomorrow o = true)) ∧
    listOrders courierU1 "D0" "D1" c6St = [orderA] := by
  constructor
  · intro u today tomorrow st o hrole
    unfold listOrders
    rw [if_pos (by simp [hrole])]
    exact List.mem_filter
  · decide

/-- Witness for C6: the membership characterisation applied to courier
`U1` and order `A` of the example store. -/
theorem c6_courier_filter_witness :
    (orderA ∈ listOrders courierU1 "D0" "D1" c6St ↔
      orderA ∈ c6St.orders ∧ courierVisible courierU1 "D0" "D1" orderA = true) ∧
    listOrders courierU1 "D0" "D1" c6St = [orderA] :=
  ⟨c6_courier_filter.1 courierU1 "D0" "D1" c6St orderA rfl, c6_courier_filter.2⟩

/-- The delivery update never changes the order id. -/
theorem applyDelivery_id (u : User) (p : DeliveryPayload) (t : String) (o : Order) :
    (applyDelivery u p t o).id = o.id := by
  unfold applyDelivery
  by_cases h : (p.deliveryStatus == "delivered") = true <;> simp [h]

/-- The delivery update never changes the assigned courier. -/
theorem applyDelivery_courierId (u : User) (p : DeliveryPayload) (t : String)
    (o : Order) : (applyDelivery u p t o).courierId = o.courierId := by
  unfold applyDelivery
  by_cases h : (p.deliveryStatus == "delivered") = true <;> simp [h]

/-- Re-applying the delivery update with the same payload overwrites every
field it touched the first time: the composite equals a single
application at the later time. -/
theorem applyDelivery_twice (u : User) (p : DeliveryPayload) (t1 t2 : String)
    (o : Order) :
    applyDelivery u p t2 (applyDelivery u p t1 o) = applyDelivery u p t2 o := by
  unfold applyDelivery
  by_cases h : (p.deliveryStatus == "delivered") = true <;> simp [h]

/-- Characterisation of a successful delivery-status request. -/
theorem deliveryStatusUpdate_ok (user : User) (oid : Nat) (p : DeliveryPayload)
    (now : String) (st : St) (order : Order)
    (hfind : findOrder st oid = some order)
    (hauth : (user.role == "courier" && order.courierId != some user.id) = false) :
    deliveryStatusUpdate user oid p now st =
      .ok (applyDelivery user p now order,
        { st with
          orders := kvSetOrder st.orders (applyDelivery user p now order)
          audit := st.audit ++
            [⟨"order", toString oid, "delivery_status_change", user.id⟩] }) := by
  unfold deliveryStatusUpdate
  simp only [hfind]
  rw [if_neg (by rw [hauth]; exact Bool.false_ne_true)]

/-- C8 (amended): replaying the same delivery-status payload is
idempotent up to re-stamped clock fields — the second application
succeeds, agrees with the first on `deliveryStatus` and every proof field,
re-stamps `deliveredAt` with the replay time, and with an identical clock
the resulting order is literally identical. -/
theorem c8_replay_idempotent_up_to_timestamps (user : User) (oid : Nat)
    (p : DeliveryPayload) (t1 t2 : String) (st : St) (o1 : Order) (st1 : St)
    (h1 : deliveryStatusUpdate user oid p t1 st = .ok (o1, st1)) :
    ∃ o2 st2, deliveryStatusUpdate user oid p t2 st1 = .ok (o2, st2) ∧
      o2.deliveryStatus = o1.deliveryStatus ∧
      o2.proofPhotoUrl = o1.proofPhotoUrl ∧
      o2.proofSignatureUrl = o1.proofSignatureUrl ∧
      o2.recipientName = o1.recipientName ∧
      o2.deliveredLat = o1.deliveredLat ∧
      o2.deliveredLng = o1.deliveredLng ∧
      (p.deliveryStatus = "delivered" → o2.deliveredAt = some t2) ∧
      (t2 = t1 → o2 = o1) := by
  unfold deliveryStatusUpdate at h1
  cases hfind : findOrder st oid with
  | none =>
    rw [hfind] at h1
    simp at h1
  | some order =>
    simp only [hfind] at h1
    by_cases hauth : (user.role == "courier" && order.courierId != some user.id)
        = true
    · rw [if_pos hauth] at h1
      simp at h1
    · rw [if_neg hauth] at h1
      rw [Except.ok.injEq, Prod.mk.injEq] at h1
      obtain ⟨ho1, hst1⟩ := h1
      have hauth' : (user.role == "courier" && order.courierId != some user.id)
          = false := by
        cases hb : (user.role == "courier" && order.courierId != some user.id) with
        | true => exact absurd hb hauth
        | false => rfl
      have hfind1 : findOrder st1 oid = some o1 := by
        rw [← hst1]
        unfold findOrder at hfind ⊢
        simp only []
        rw [← ho1]
        exact find_kvSetOrder st.orders oid order _ hfind
          (applyDelivery_id user p t1 order)
      have hauth1 : (user.role == "courier" && o1.courierId != some user.id)
          = false := by
        rw [← ho1, applyDelivery_courierId]
        exact hauth'
      refine ⟨applyDelivery user p t2 o1, _,
        deliveryStatusUpdate_ok user oid p t2 st1 o1 hfind1 hauth1,
        ?_, ?_, ?_, ?_, ?_, ?_, ?_, ?_⟩
      all_goals rw [← ho1, applyDelivery_twice]
      · unfold applyDelivery
        by_cases hd : (p.deliveryStatus == "delivered") = true <;> simp [hd]
      · unfold applyDelivery
        by_cases hd : (p.deliveryStatus == "delivered") = true <;> simp [hd]
      · unfold applyDelivery
        by_cases hd : (p.deliveryStatus == "delivered") = true <;> simp [hd]
      · unfold applyDelivery
        by_cases hd : (p.deliveryStatus == "delivered") = true <;> simp [hd]
      · unfold applyDelivery
        by_cases hd : (p.deliveryStatus == "delivered") = true <;> simp [hd]
      · unfold applyDelivery
        by_cases hd : (p.deliveryStatus == "delivered") = true <;> simp [hd]
      · intro hds
        simp [applyDelivery, hds]
      · intro ht
        rw [ht]

/-- Witness for C8: a first confirmation against `c3St` at `T1` succeeds
and the replay theorem applies to it. -/
theorem c8_replay_witness :
    deliveryStatusUpdate courierU1 1 c8Payload "T1" c3St = .ok (c8o1, c8st1) ∧
    (∃ o2 st2, deliveryStatusUpdate courierU1 1 c8Payload "T2" c8st1 =
        .ok (o2, st2) ∧
      o2.deliveryStatus = c8o1.deliveryStatus ∧
      o2.proofPhotoUrl = c8o1.proofPhotoUrl ∧
      o2.proofSignatureUrl = c8o1.proofSignatureUrl ∧
      o2.recipientName = c8o1.recipientName ∧
      o2.deliveredLat = c8o1.deliveredLat ∧
      o2.deliveredLng = c8o1.deliveredLng ∧
      (c8Payload.deliveryStatus = "delivered" → o2.deliveredAt = some "T2") ∧
      ("T2" = "T1" → o2 = c8o1)) :=
  ⟨rfl,
   c8_replay_idempotent_up_to_timestamps courierU1 1 c8Payload "T1" "T2" c3St
     c8o1 c8st1 rfl⟩

/-- C8 counterexample: the replay is not literally idempotent — the second
application of the same `delivered` payload at a later clock re-stamps
`deliveredAt` with the new time, so the order state after the second
application differs from the state after the first. -/
theorem c8_restamps_deliveredAt :
    (resultOrder (deliveryStatusUpdate courierU1 1 c8Payload "T2" c8st1)).map
        Order.deliveredAt = some (some "T2")
    ∧ c8o1.deliveredAt = some "T1" := by
  decide

/-- C3 (amended): the `delivered` validation lives in the courier client,
not the server — `handleUpdateStatus` rejects a `delivered` confirmation
with a missing/empty photo or an empty recipient name before issuing any
request, leaving server state and queue untouched; when both proof fields
are present (and the caller is authorised) the request goes through and
the server stamps the proof. -/
theorem c3_delivered_guard_is_client_side (user : User) (oid : Nat)
    (proofPhoto : Option String) (recipientName : String)
    (loc : Option (Int × Int)) (connected : Bool) (now : String) (nowMs : Nat)
    (st : St) (q : Queue) :
    ((jsFalsyOpt proofPhoto || recipientName == "") = true →
      handleUpdateStatus user oid proofPhoto recipientName loc "delivered"
        connected now nowMs st q = (.validationError, st, q)) ∧
    (∀ ph order, proofPhoto = some ph → ph ≠ "" → recipientName ≠ "" →
      connected = true → findOrder st oid = some order →
      (user.role = "courier" → order.courierId = some user.id) →
      ∃ st', handleUpdateStatus user oid proofPhoto recipientName loc "delivered"
          connected now nowMs st q = (.success, st', q) ∧
        findOrder st' oid = some (applyDelivery user
          (clientPayload "delivered" proofPhoto recipientName loc) now order) ∧
        (applyDelivery user (clientPayload "delivered" proofPhoto recipientName loc)
          now order).deliveryStatus = some "delivered" ∧
        (applyDelivery user (clientPayload "delivered" proofPhoto recipientName loc)
          now order).recipientName = some recipientName ∧
        (applyDelivery user (clientPayload "delivered" proofPhoto recipientName loc)
          now order).proofPhotoUrl = some ph ∧
        (applyDelivery user (clientPayload "delivered" proofPhoto recipientName loc)
          now order).deliveredAt = some now) := by
  constructor
  · intro hguard
    unfold handleUpdateStatus
    rw [if_pos (by simp [hguard])]
  · intro ph order hph hphne hname hconn hfind hcourier
    have hguard : (("delivered" == "delivered") &&
        (jsFalsyOpt proofPhoto || recipientName == "")) = false := by
      subst hph
      simp [jsFalsyOpt, hphne, hname]
    have hauth : (user.role == "courier" && order.courierId != some user.id)
        = false := by
      cases hr : user.role == "courier" with
      | false => simp
      | true =>
        have hcid := hcourier (by simpa using hr)
        simp [hcid]
    unfold handleUpdateStatus
    rw [if_neg (by rw [hguard]; exact Bool.false_ne_true)]
    subst hconn
    rw [if_pos rfl]
    rw [deliveryStatusUpdate_ok user oid
      (clientPayload "delivered" proofPhoto recipientName loc) now st order
      hfind hauth]
    refine ⟨_, rfl, ?_, ?_, ?_, ?_, ?_⟩
    · unfold findOrder at hfind ⊢
      simp only []
      exact find_kvSetOrder st.orders oid order _ hfind
        (applyDelivery_id user _ now order)
    · simp [applyDelivery, clientPayload]
    · simp [applyDelivery, clientPayload, hname]
    · subst hph
      simp [applyDelivery, clientPayload]
    · simp [applyDelivery, clientPayload]

/-- Witness for C3, both halves at concrete inputs: an empty recipient
name is rejected with no request and no state change; full proof goes
through and is stamped. -/
theorem c3_delivered_guard_witness :
    handleUpdateStatus courierU1 1 (some "photo.jpg") "" none "delivered"
        true "T1" 5 c3St Queue.empty = (.validationError, c3St, Queue.empty) ∧
    (∃ st', handleUpdateStatus courierU1 1 (some "photo.jpg") "Ivan" none
        "delivered" true "T1" 5 c3St Queue.empty = (.success, st', Queue.empty) ∧
      findOrder st' 1 = some (applyDelivery courierU1
        (clientPayload "delivered" (some "photo.jpg") "Ivan" none) "T1" c3Order) ∧
      (applyDelivery courierU1 (clientPayload "delivered" (some "photo.jpg")
        "Ivan" none) "T1" c3Order).deliveryStatus = some "delivered" ∧
      (applyDelivery courierU1 (clientPayload "delivered" (some "photo.jpg")
        "Ivan" none) "T1" c3Order).recipientName = some "Ivan" ∧
      (applyDelivery courierU1 (clientPayload "delivered" (some "photo.jpg")
        "Ivan" none) "T1" c3Order).proofPhotoUrl = some "photo.jpg" ∧
      (applyDelivery courierU1 (clientPayload "delivered" (some "photo.jpg")
        "Ivan" none) "T1" c3Order).deliveredAt = some "T1") :=
  ⟨(c3_delivered_guard_is_client_side courierU1 1 (some "photo.jpg") "" none
      true "T1" 5 c3St Queue.empty).1 (by decide),
   (c3_delivered_guard_is_client_side courierU1 1 (some "photo.jpg") "Ivan" none
      true "T1" 5 c3St Queue.empty).2 "photo.jpg" c3Order rfl (by decide)
      (by decide) rfl (by decide) (fun _ => by decide)⟩

/-- The unit a serial lookup returns carries that serial. -/
theorem find_serial_eq (units : List StockUnit) (s : String) (u : StockUnit)
    (h : findUnitBySerial units s = some u) : u.serial = s := by
  have := List.find?_some h
  simpa using this

/-- A reservation step with an untruthy serial is a no-op. -/
theorem reserveItem_empty (user : User) (oid : Nat) (onum now : String)
    (st : St) (item : OrderItem) (h : (item.serial != "") = false) :
    reserveItem user oid onum now st item = st := by
  unfold reserveItem
  rw [if_neg (by rw [h]; exact Bool.false_ne_true)]

/-- A reservation step whose serial matches no unit is a no-op. -/
theorem reserveItem_none (user : User) (oid : Nat) (onum now : String)
    (st : St) (item : OrderItem)
    (h : findUnitBySerial st.stockUnits item.serial = none) :
    reserveItem user oid onum now st item = st := by
  unfold reserveItem
  by_cases hs : (item.serial != "") = true
  · rw [if_pos hs, h]
  · rw [if_neg hs]

/-- A reservation step whose unit is not `available` is a no-op (the
silent skip). -/
theorem reserveItem_notAvailable (user : User) (oid : Nat) (onum now : String)
    (st : St) (item : OrderItem) (u : StockUnit)
    (hfind : findUnitBySerial st.stockUnits item.serial = some u)
    (hnav : (u.status == "available") = false) :
    reserveItem user oid onum now st item = st := by
  unfold reserveItem
  by_cases hs : (item.serial != "") = true
  · rw [if_pos hs, hfind]
    simp only []
    rw [if_neg (by rw [hnav]; exact Bool.false_ne_true)]
  · rw [if_neg hs]

/-- A reservation step whose unit is `available` writes the reservation
and appends one `reserve` movement; the lookup for that serial now yields
the reserved unit, every other serial's lookup and ledger slice are
untouched, and the id column is unchanged. -/
theorem reserveItem_hit (user : User) (oid : Nat) (onum now : String)
    (st : St) (item : OrderItem) (u : StockUnit)
    (hser : (item.serial != "") = true)
    (hfind : findUnitBySerial st.stockUnits item.serial = some u)
    (hav : (u.status == "available") = true)
    (hnodup : (st.stockUnits.map (fun v => v.id)).Nodup) :
    findUnitBySerial ((reserveItem user oid onum now st item).stockUnits)
        item.serial = some { u with status := "reserved", orderId := some oid } ∧
    (∀ s, s ≠ item.serial →
      findUnitBySerial ((reserveItem user oid onum now st item).stockUnits) s =
        findUnitBySerial st.stockUnits s) ∧
    (reserveItem user oid onum now st item).stockMoves =
      st.stockMoves ++ [⟨"reserve", item.productId, item.serial, 1, now,
        "Заказ " ++ onum, user.id⟩] ∧
    ((reserveItem user oid onum now st item).stockUnits.map (fun v => v.id))
      = st.stockUnits.map (fun v => v.id) := by
  have hus : u.serial = item.serial := find_serial_eq _ _ _ hfind
  have hfind' : findUnitBySerial st.stockUnits u.serial = some u := by
    rw [hus]; exact hfind
  have hmem : u ∈ st.stockUnits := List.mem_of_find?_eq_some hfind
  have hinj := nodup_ids_inj st.stockUnits hnodup u hmem
  have hstep : reserveItem user oid onum now st item =
      { st with
        stockUnits := kvSetUnit st.stockUnits
          { u with status := "reserved", orderId := some oid }
        stockMoves := st.stockMoves ++
          [⟨"reserve", item.productId, item.serial, 1, now,
            "Заказ " ++ onum, user.id⟩] } := by
    unfold reserveItem
    rw [if_pos hser, hfind]
    simp only []
    rw [if_pos hav]
  rw [hstep]
  refine ⟨?_, ?_, rfl, ?_⟩
  · have := find_kvSetUnit_update st.stockUnits u
      { u with status := "reserved", orderId := some oid } hfind' hinj rfl rfl
      item.serial
    rw [this, if_pos hus.symm]
  · intro s hs
    have := find_kvSetUnit_update st.stockUnits u
      { u with status := "reserved", orderId := some oid } hfind' hinj rfl rfl s
    rw [this, if_neg (by rw [hus]; exact hs)]
  · exact ids_kvSetUnit st.stockUnits _ (any_id_of_mem st.stockUnits u _ hmem rfl)

/-- Frame property of the reservation loop: items that do not carry serial
`s` never change the lookup for `s`, the `reserve` ledger slice for `s`,
or the id column. -/
theorem reserveFold_frame (user : User) (oid : Nat) (onum now : String)
    (s : String) :
    ∀ (items : List OrderItem) (st : St),
      (∀ j ∈ items, j.serial ≠ s) →
      (st.stockUnits.map (fun v => v.id)).Nodup →
      findUnitBySerial ((items.foldl (reserveItem user oid onum now) st).stockUnits) s
        = findUnitBySerial st.stockUnits s ∧
      reserveMovesFor ((items.foldl (reserveItem user oid onum now) st).stockMoves) s
        = reserveMovesFor st.stockMoves s ∧
      ((items.foldl (reserveItem user oid onum now) st).stockUnits.map
        (fun v => v.id)).Nodup := by
  intro items
  induction items with
  | nil => intro st _ hnodup; exact ⟨rfl, rfl, hnodup⟩
  | cons j rest ih =>
    intro st hall hnodup
    rw [List.foldl_cons]
    have hjs : j.serial ≠ s := hall j (List.mem_cons_self j rest)
    have hrest : ∀ x ∈ rest, x.serial ≠ s :=
      fun x hx => hall x (List.mem_cons_of_mem j hx)
    by_cases hser : (j.serial != "") = true
    · cases hfind : findUnitBySerial st.stockUnits j.serial with
      | none =>
        rw [reserveItem_none user oid onum now st j hfind]
        exact ih st hrest hnodup
      | some u =>
        by_cases hav : (u.status == "available") = true
        · have hhit := reserveItem_hit user oid onum now st j u hser hfind hav hnodup
          set st1 := reserveItem user oid onum now st j with hst1
          have hnodup1 : (st1.stockUnits.map (fun v => v.id)).Nodup := by
            rw [hhit.2.2.2]; exact hnodup
          obtain ⟨hf, hm, hn⟩ := ih st1 hrest hnodup1
          refine ⟨?_, ?_, hn⟩
          · rw [hf, hhit.2.1 s (fun he => hjs he.symm)]
          · rw [hm, hhit.2.2.1]
            unfold reserveMovesFor
            rw [List.filter_append]
            have : (([⟨"reserve", j.productId, j.serial, 1, now,
                  "Заказ " ++ onum, user.id⟩] : List StockMovement).filter
                (fun m => m.type == "reserve" && m.serial == s)) = [] := by
              simp [hjs]
            rw [this, List.append_nil]
        · rw [reserveItem_notAvailable user oid onum now st j u hfind
            (by rw [Bool.eq_false_iff]; exact hav)]
          exact ih st hrest hnodup
    · rw [reserveItem_empty user oid onum now st j
        (by rw [Bool.eq_false_iff]; exact hser)]
      exact ih st hrest hnodup

/-- Effect of the reservation loop on one distinguished item whose serial
no other item of the transition shares: an `available` unit is reserved
with the order id attached and exactly one `reserve` movement for that
serial is appended; a non-`available` unit is skipped with no movement. -/
theorem reserveFold_effect (user : User) (oid : Nat) (onum now : String)
    (l1 l2 : List OrderItem) (i : OrderItem) (st : St) (u : StockUnit)
    (hser : (i.serial != "") = true)
    (h1 : ∀ j ∈ l1, j.serial ≠ i.serial) (h2 : ∀ j ∈ l2, j.serial ≠ i.serial)
    (hnodup : (st.stockUnits.map (fun v => v.id)).Nodup)
    (hfind : findUnitBySerial st.stockUnits i.serial = some u) :
    ((u.status == "available") = true →
      findUnitBySerial (((l1 ++ i :: l2).foldl (reserveItem user oid onum now)
          st).stockUnits) i.serial =
        some { u with status := "reserved", orderId := some oid } ∧
      reserveMovesFor (((l1 ++ i :: l2).foldl (reserveItem user oid onum now)
          st).stockMoves) i.serial =
        reserveMovesFor st.stockMoves i.serial ++
          [⟨"reserve", i.productId, i.serial, 1, now,
            "Заказ " ++ onum, user.id⟩]) ∧
    ((u.status == "available") = false →
      findUnitBySerial (((l1 ++ i :: l2).foldl (reserveItem user oid onum now)
          st).stockUnits) i.serial = some u ∧
      reserveMovesFor (((l1 ++ i :: l2).foldl (reserveItem user oid onum now)
          st).stockMoves) i.serial = reserveMovesFor st.stockMoves i.serial) := by
  rw [List.foldl_append, List.foldl_cons]
  obtain ⟨hf1, hm1, hn1⟩ := reserveFold_frame user oid onum now i.serial l1 st h1 hnodup
  have hfind1 : findUnitBySerial
      ((l1.foldl (reserveItem user oid onum now) st).stockUnits) i.serial = some u := by
    rw [hf1]; exact hfind
  constructor
  · intro hav
    have hhit := reserveItem_hit user oid onum now
      (l1.foldl (reserveItem user oid onum now) st) i u hser hfind1 hav hn1
    have hn2 : (((reserveItem user oid onum now
        (l1.foldl (reserveItem user oid onum now) st) i)).stockUnits.map
        (fun v => v.id)).Nodup := by
      rw [hhit.2.2.2]; exact hn1
    obtain ⟨hf2, hm2, _⟩ := reserveFold_frame user oid onum now i.serial l2 _ h2 hn2
    refine ⟨?_, ?_⟩
    · rw [hf2, hhit.1]
    · rw [hm2, hhit.2.2.1]
      unfold reserveMovesFor
      rw [List.filter_append]
      have hone : (([⟨"reserve", i.productId, i.serial, 1, now,
            "Заказ " ++ onum, user.id⟩] : List StockMovement).filter
          (fun m => m.type == "reserve" && m.serial == i.serial)) =
          [⟨"reserve", i.productId, i.serial, 1, now,
            "Заказ " ++ onum, user.id⟩] := by
        simp
      rw [hone]
      unfold reserveMovesFor at hm1
      rw [hm1]
  · intro hnav
    rw [reserveItem_notAvailable user oid onum now _ i u hfind1 hnav]
    obtain ⟨hf2, hm2, _⟩ := reserveFold_frame user oid onum now i.serial l2 _ h2 hn1
    exact ⟨by rw [hf2, hfind1], by rw [hm2, hm1]⟩

/-- C1 (amended): on a `picking`/`shipped` transition the loop matches
units by serial alone (first in scan order, not by `(productId, serial)`);
for an item whose serial no other item shares, if that unit is
`available` it becomes `reserved` with the order id attached and exactly
one `reserve` movement for that serial is appended, otherwise the item is
silently skipped — and the transition succeeds either way. -/
theorem c1_reserve_on_picking_or_shipped (user : User) (oid : Nat)
    (req : StatusRequest) (now : String) (st : St) (order : Order)
    (l1 l2 : List OrderItem) (i : OrderItem) (u : StockUnit)
    (horder : findOrder st oid = some order)
    (hreq : req.status = "picking" ∨ req.status = "shipped")
    (hitems : itemsOfOrder st oid = l1 ++ i :: l2)
    (hser : i.serial ≠ "")
    (h1 : ∀ j ∈ l1, j.serial ≠ i.serial) (h2 : ∀ j ∈ l2, j.serial ≠ i.serial)
    (hnodup : (st.stockUnits.map (fun v => v.id)).Nodup)
    (hfind : findUnitBySerial st.stockUnits i.serial = some u) :
    ∃ o' st', updateStatus user oid req now st = .ok (o', st') ∧
      (u.status = "available" →
        findUnitBySerial st'.stockUnits i.serial =
          some { u with status := "reserved", orderId := some oid } ∧
        reserveMovesFor st'.stockMoves i.serial =
          reserveMovesFor st.stockMoves i.serial ++
            [⟨"reserve", i.productId, i.serial, 1, now,
              "Заказ " ++ order.number, user.id⟩]) ∧
      (u.status ≠ "available" →
        findUnitBySerial st'.stockUnits i.serial = some u ∧
        reserveMovesFor st'.stockMoves i.serial =
          reserveMovesFor st.stockMoves i.serial) := by
  have hb1 : (req.status == "picking" || req.status == "shipped") = true := by
    cases hreq with
    | inl h => rw [h]; rfl
    | inr h => rw [h]; rfl
  have hb2 : ¬((req.status == "completed") = true) := by
    cases hreq with
    | inl h => rw [h]; exact Bool.false_ne_true
    | inr h => rw [h]; exact Bool.false_ne_true
  have heff := reserveFold_effect user oid order.number now l1 l2 i st u
    (by simpa using hser) h1 h2 hnodup hfind
  rw [← hitems] at heff
  unfold updateStatus
  simp only [horder]
  rw [if_pos hb1, if_neg hb2]
  refine ⟨_, _, rfl, ?_, ?_⟩
  · intro hav
    have := heff.1 (by simpa using hav)
    exact this
  · intro hnav
    have := heff.2 (by
      rw [Bool.eq_false_iff]
      intro hb
      exact hnav (by simpa using hb))
    exact this

/-- Witness for C1 at the concrete store `c1St`: the first unit in scan
order with serial `S` (product 2, kv id 1) is available and becomes
reserved for order 1 with one `reserve` movement appended. -/
theorem c1_reserve_witness :
    ∃ o' st', updateStatus mgr 1 ⟨"picking", none⟩ "T1" c1St = .ok (o', st') ∧
      ((⟨1, 2, "S", "available", none⟩ : StockUnit).status = "available" →
        findUnitBySerial st'.stockUnits (⟨1, 1, "S"⟩ : OrderItem).serial =
          some { (⟨1, 2, "S", "available", none⟩ : StockUnit) with
            status := "reserved", orderId := some 1 } ∧
        reserveMovesFor st'.stockMoves (⟨1, 1, "S"⟩ : OrderItem).serial =
          reserveMovesFor c1St.stockMoves (⟨1, 1, "S"⟩ : OrderItem).serial ++
            [⟨"reserve", 1, "S", 1, "T1", "Заказ " ++ "ORD-1", "u-mgr"⟩]) ∧
      ((⟨1, 2, "S", "available", none⟩ : StockUnit).status ≠ "available" →
        findUnitBySerial st'.stockUnits (⟨1, 1, "S"⟩ : OrderItem).serial =
          some ⟨1, 2, "S", "available", none⟩ ∧
        reserveMovesFor st'.stockMoves (⟨1, 1, "S"⟩ : OrderItem).serial =
          reserveMovesFor c1St.stockMoves (⟨1, 1, "S"⟩ : OrderItem).serial) :=
  c1_reserve_on_picking_or_shipped mgr 1 ⟨"picking", none⟩ "T1" c1St
    { baseOrder with status := "confirmed" } [] [] ⟨1, 1, "S"⟩
    ⟨1, 2, "S", "available", none⟩ (by decide) (Or.inl rfl) (by decide)
    (by decide) (by simp) (by simp) (by decide) (by decide)

/-- A write-off step with an untruthy serial is a no-op. -/
theorem writeoffItem_empty (user : User) (onum now : String)
    (st : St) (item : OrderItem) (h : (item.serial != "") = false) :
    writeoffItem user onum now st item = st := by
  unfold writeoffItem
  rw [if_neg (by rw [h]; exact Bool.false_ne_true)]

/-- A write-off step whose serial matches no unit is a no-op. -/
theorem writeoffItem_none (user : User) (onum now : String)
    (st : St) (item : OrderItem)
    (h : findUnitBySerial st.stockUnits item.serial = none) :
    writeoffItem user onum now st item = st := by
  unfold writeoffItem
  by_cases hs : (item.serial != "") = true
  · rw [if_pos hs, h]
  · rw [if_neg hs]

/-- A write-off step on a found unit — whatever its status — marks it
`sold` (keeping its `orderId`), appends one `writeoff` movement, leaves
every other serial's lookup alone and never changes the id column. -/
theorem writeoffItem_hit (user : User) (onum now : String)
    (st : St) (item : OrderItem) (u : StockUnit)
    (hser : (item.serial != "") = true)
    (hfind : findUnitBySerial st.stockUnits item.serial = some u)
    (hnodup : (st.stockUnits.map (fun v => v.id)).Nodup) :
    findUnitBySerial ((writeoffItem user onum now st item).stockUnits)
        item.serial = some { u with status := "sold" } ∧
    (∀ s, s ≠ item.serial →
      findUnitBySerial ((writeoffItem user onum now st item).stockUnits) s =
        findUnitBySerial st.stockUnits s) ∧
    (writeoffItem user onum now st item).stockMoves =
      st.stockMoves ++ [⟨"writeoff", item.productId, item.serial, 1, now,
        "Заказ " ++ onum, user.id⟩] ∧
    ((writeoffItem user onum now st item).stockUnits.map (fun v => v.id))
      = st.stockUnits.map (fun v => v.id) := by
  have hus : u.serial = item.serial := find_serial_eq _ _ _ hfind
  have hfind' : findUnitBySerial st.stockUnits u.serial = some u := by
    rw [hus]; exact hfind
  have hmem : u ∈ st.stockUnits := List.mem_of_find?_eq_some hfind
  have hinj := nodup_ids_inj st.stockUnits hnodup u hmem
  have hstep : writeoffItem user onum now st item =
      { st with
        stockUnits := kvSetUnit st.stockUnits { u with status := "sold" }
        stockMoves := st.stockMoves ++
          [⟨"writeoff", item.productId, item.serial, 1, now,
            "Заказ " ++ onum, user.id⟩] } := by
    unfold writeoffItem
    rw [if_pos hser, hfind]
  rw [hstep]
  refine ⟨?_, ?_, rfl, ?_⟩
  · have := find_kvSetUnit_update st.stockUnits u
      { u with status := "sold" } hfind' hinj rfl rfl item.serial
    rw [this, if_pos hus.symm]
  · intro s hs
    have := find_kvSetUnit_update st.stockUnits u
      { u with status := "sold" } hfind' hinj rfl rfl s
    rw [this, if_neg (by rw [hus]; exact hs)]
  · exact ids_kvSetUnit st.stockUnits _ (any_id_of_mem st.stockUnits u _ hmem rfl)

/-- Frame property of the write-off loop for serials no item carries. -/
theorem writeoffFold_frame (user : User) (onum now : String) (s : String) :
    ∀ (items : List OrderItem) (st : St),
      (∀ j ∈ items, j.serial ≠ s) →
      (st.stockUnits.map (fun v => v.id)).Nodup →
      findUnitBySerial ((items.foldl (writeoffItem user onum now) st).stockUnits) s
        = findUnitBySerial st.stockUnits s ∧
      writeoffMovesFor ((items.foldl (writeoffItem user onum now) st).stockMoves) s
        = writeoffMovesFor st.stockMoves s ∧
      ((items.foldl (writeoffItem user onum now) st).stockUnits.map
        (fun v => v.id)).Nodup := by
  intro items
  induction items with
  | nil => intro st _ hnodup; exact ⟨rfl, rfl, hnodup⟩
  | cons j rest ih =>
    intro st hall hnodup
    rw [List.foldl_cons]
    have hjs : j.serial ≠ s := hall j (List.mem_cons_self j rest)
    have hrest : ∀ x ∈ rest, x.serial ≠ s :=
      fun x hx => hall x (List.mem_cons_of_mem j hx)
    by_cases hser : (j.serial != "") = true
    · cases hfind : findUnitBySerial st.stockUnits j.serial with
      | none =>
        rw [writeoffItem_none user onum now st j hfind]
        exact ih st hrest hnodup
      | some u =>
        have hhit := writeoffItem_hit user onum now st j u hser hfind hnodup
        have hnodup1 : ((writeoffItem user onum now st j).stockUnits.map
            (fun v => v.id)).Nodup := by
          rw [hhit.2.2.2]; exact hnodup
        obtain ⟨hf, hm, hn⟩ := ih (writeoffItem user onum now st j) hrest hnodup1
        refine ⟨?_, ?_, hn⟩
        · rw [hf, hhit.2.1 s (fun he => hjs he.symm)]
        · rw [hm, hhit.2.2.1]
          unfold writeoffMovesFor
          rw [List.filter_append]
          have hz : (([⟨"writeoff", j.productId, j.serial, 1, now,
                "Заказ " ++ onum, user.id⟩] : List StockMovement).filter
              (fun m => m.type == "writeoff" && m.serial == s)) = [] := by
            simp [hjs]
          rw [hz, List.append_nil]
    · rw [writeoffItem_empty user onum now st j
        (by rw [Bool.eq_false_iff]; exact hser)]
      exact ih st hrest hnodup

/-- Effect of the write-off loop on one distinguished item whose serial no
other item shares: the unit is marked `sold` regardless of its previous
status, its `orderId` is carried over, and exactly one `writeoff`
movement for that serial is appended. -/
theorem writeoffFold_effect (user : User) (onum now : String)
    (l1 l2 : List OrderItem) (i : OrderItem) (st : St) (u : StockUnit)
    (hser : (i.serial != "") = true)
    (h1 : ∀ j ∈ l1, j.serial ≠ i.serial) (h2 : ∀ j ∈ l2, j.serial ≠ i.serial)
    (hnodup : (st.stockUnits.map (fun v => v.id)).Nodup)
    (hfind : findUnitBySerial st.stockUnits i.serial = some u) :
    findUnitBySerial (((l1 ++ i :: l2).foldl (writeoffItem user onum now)
        st).stockUnits) i.serial = some { u with status := "sold" } ∧
    writeoffMovesFor (((l1 ++ i :: l2).foldl (writeoffItem user onum now)
        st).stockMoves) i.serial =
      writeoffMovesFor st.stockMoves i.serial ++
        [⟨"writeoff", i.productId, i.serial, 1, now,
          "Заказ " ++ onum, user.id⟩] := by
  rw [List.foldl_append, List.foldl_cons]
  obtain ⟨hf1, hm1, hn1⟩ := writeoffFold_frame user onum now i.serial l1 st h1 hnodup
  have hfind1 : findUnitBySerial
      ((l1.foldl (writeoffItem user onum now) st).stockUnits) i.serial = some u := by
    rw [hf1]; exact hfind
  have hhit := writeoffItem_hit user onum now
    (l1.foldl (writeoffItem user onum now) st) i u hser hfind1 hn1
  have hn2 : (((writeoffItem user onum now
      (l1.foldl (writeoffItem user onum now) st) i)).stockUnits.map
      (fun v => v.id)).Nodup := by
    rw [hhit.2.2.2]; exact hn1
  obtain ⟨hf2, hm2, _⟩ := writeoffFold_frame user onum now i.serial l2 _ h2 hn2
  refine ⟨?_, ?_⟩
  · rw [hf2, hhit.1]
  · rw [hm2, hhit.2.2.1]
    unfold writeoffMovesFor
    rw [List.filter_append]
    have hone : (([⟨"writeoff", i.productId, i.serial, 1, now,
          "Заказ " ++ onum, user.id⟩] : List StockMovement).filter
        (fun m => m.type == "writeoff" && m.serial == i.serial)) =
        [⟨"writeoff", i.productId, i.serial, 1, now,
          "Заказ " ++ onum, user.id⟩] := by
      simp
    rw [hone]
    unfold writeoffMovesFor at hm1
    rw [hm1]

/-- C2 (amended): on a `completed` transition every serialized item's unit
(matched by serial, first in scan order) becomes `sold` regardless of its
prior status, with exactly one `writeoff` movement per item serial — but
the unit's `orderId` reference is carried over unchanged, not cleared. -/
theorem c2_writeoff_on_completed (user : User) (oid : Nat)
    (req : StatusRequest) (now : String) (st : St) (order : Order)
    (l1 l2 : List OrderItem) (i : OrderItem) (u : StockUnit)
    (horder : findOrder st oid = some order)
    (hreq : req.status = "completed")
    (hitems : itemsOfOrder st oid = l1 ++ i :: l2)
    (hser : i.serial ≠ "")
    (h1 : ∀ j ∈ l1, j.serial ≠ i.serial) (h2 : ∀ j ∈ l2, j.serial ≠ i.serial)
    (hnodup : (st.stockUnits.map (fun v => v.id)).Nodup)
    (hfind : findUnitBySerial st.stockUnits i.serial = some u) :
    ∃ o' st', updateStatus user oid req now st = .ok (o', st') ∧
      findUnitBySerial st'.stockUnits i.serial = some { u with status := "sold" } ∧
      ({ u with status := "sold" } : StockUnit).orderId = u.orderId ∧
      writeoffMovesFor st'.stockMoves i.serial =
        writeoffMovesFor st.stockMoves i.serial ++
          [⟨"writeoff", i.productId, i.serial, 1, now,
            "Заказ " ++ order.number, user.id⟩] := by
  have hb1 : ¬((req.status == "picking" || req.status == "shipped") = true) := by
    rw [hreq]; exact Bool.false_ne_true
  have hb2 : (req.status == "completed") = true := by rw [hreq]; rfl
  have heff := writeoffFold_effect user order.number now l1 l2 i st u
    (by simpa using hser) h1 h2 hnodup hfind
  rw [← hitems] at heff
  unfold updateStatus
  simp only [horder]
  rw [if_neg hb1, if_pos hb2]
  refine ⟨_, _, rfl, heff.1, ?_, heff.2⟩
  trivial

/-- Witness for C2 at the concrete store `c2St`: the reserved unit of
order 1 is marked `sold`, its `orderId = some 1` is retained, and one
`writeoff` movement is appended. -/
theorem c2_writeoff_witness :
    ∃ o' st', updateStatus mgr 1 ⟨"completed", none⟩ "T1" c2St = .ok (o', st') ∧
      findUnitBySerial st'.stockUnits (⟨1, 5, "S"⟩ : OrderItem).serial =
        some { (⟨10, 5, "S", "reserved", some 1⟩ : StockUnit) with
          status := "sold" } ∧
      ({ (⟨10, 5, "S", "reserved", some 1⟩ : StockUnit) with
          status := "sold" } : StockUnit).orderId =
        (⟨10, 5, "S", "reserved", some 1⟩ : StockUnit).orderId ∧
      writeoffMovesFor st'.stockMoves (⟨1, 5, "S"⟩ : OrderItem).serial =
        writeoffMovesFor c2St.stockMoves (⟨1, 5, "S"⟩ : OrderItem).serial ++
          [⟨"writeoff", 5, "S", 1, "T1", "Заказ " ++ "ORD-1", "u-mgr"⟩] :=
  c2_writeoff_on_completed mgr 1 ⟨"completed", none⟩ "T1" c2St
    { baseOrder with status := "shipped" } [] [] ⟨1, 5, "S"⟩
    ⟨10, 5, "S", "reserved", some 1⟩ (by decide) rfl (by decide)
    (by decide) (by simp) (by simp) (by decide) (by decide)

end Crm
